import Mathlib

/-!
Verification of the `db_workshop` personal-TODO service.

The repository holds two iterations of the same service:
* `WS0` embeds `workshop/00_personal_TODO` (idempotent create via an
  idempotency-key ledger, hard delete only);
* `WS1` embeds `workshop/00_personal_todo` (soft delete / restore,
  pagination and search).

The SQLAlchemy session plus SQLite database is modelled as an explicit
state value (`DB`); each CRUD function of `services/todo_crud.py` becomes a
state-passing function.  Server-assigned timestamps are modelled by a
logical clock `now : Nat` that advances on every committed write.
-/

namespace DbWorkshop

/-- An HTTP outcome produced by a route handler: either a success status
with a serialized body, or an `HTTPException` with a status code and a
`detail` message. -/
inductive HttpResponse (α : Type) where
  | ok (status : Nat) (body : α)
  | err (status : Nat) (detail : String)
deriving Repr, DecidableEq

namespace WS0

/-- Row of the `todos` table (`workshop/00_personal_TODO/models.py`):
integer primary key, non-null title, optional description, completion
flag, server-assigned creation timestamp.  This iteration has no
soft-delete column.  `is_completed = Column(Boolean, default=False)`
does not say `nullable=False`, so the column is nullable: rows created
through the API always carry a value, but an update can store NULL. -/
structure Todo where
  id : Nat
  title : String
  description : Option String
  is_completed : Option Bool
  created_at : Nat
deriving Repr, DecidableEq

/-- Row of the `todo_idempotency_keys` table
(`workshop/00_personal_TODO/models.py`): a unique client-supplied key and
the id of the todo it produced. -/
structure TodoIdempotency where
  id : Nat
  idempotency_key : String
  todo_id : Nat
  created_at : Nat
deriving Repr, DecidableEq

/-- Validated body of a create request
(`workshop/00_personal_TODO/schemas.py`, `TodoCreate`). -/
structure TodoCreate where
  title : String
  description : Option String
  is_completed : Bool
deriving Repr, DecidableEq

/-- Validated body of a partial update
(`workshop/00_personal_TODO/schemas.py`, `TodoUpdate`): every field is
declared `... | None = None`, and `model_dump(exclude_unset=True)`
passes exactly the explicitly set fields — explicitly set nulls
included — to the `setattr` loop.  The outer `Option` is unset/set; the
inner one is the set value, which may itself be `null` (`some none`). -/
structure TodoUpdate where
  title : Option (Option String)
  description : Option (Option String)
  is_completed : Option (Option Bool)
deriving Repr, DecidableEq

/-- A raw create request body, before validation: each JSON field is
either absent (`none`) or present with a well-typed value.  For
`description`, `some none` is an explicit `null`. -/
structure RawTodoCreate where
  title : Option String
  description : Option (Option String)
  is_completed : Option Bool
deriving Repr, DecidableEq

/-- Pydantic validation of `TodoCreate`
(`workshop/00_personal_TODO/schemas.py`): `title: str` is required but
carries no further constraint — no `min_length`, no `max_length` — while
`description` defaults to `None` and `is_completed` to `False`.  A body
without `title` is rejected with a validation error (`none`); any string
title, the empty string included, is accepted. -/
def validate_todo_create (raw : RawTodoCreate) : Option TodoCreate :=
  match raw.title with
  | none => none
  | some title =>
    some
      { title := title
        description := raw.description.getD none
        is_completed := raw.is_completed.getD false }

/-- Database state of this iteration: the two tables, the autoincrement
counters of their primary keys, and the logical clock used for
server-assigned timestamps. -/
structure DB where
  todos : List Todo
  idem : List TodoIdempotency
  next_todo_id : Nat
  next_idem_id : Nat
  now : Nat
deriving Repr, DecidableEq

/-- The freshly initialised database: both tables empty, autoincrement
counters at 1. -/
def DB.empty : DB :=
  { todos := [], idem := [], next_todo_id := 1, next_idem_id := 1, now := 0 }

/-- Python truthiness of the `idempotency_key: str | None` argument:
`if idempotency_key:` is `False` both for `None` and for the empty
string. -/
def pyTruthy : Option String → Bool
  | some s => s ≠ ""
  | none => false

/-- `get_todo_by_idempotency_key` (`services/todo_crud.py`): look the key
up in the ledger; on a hit, fetch the referenced todo by primary key
(`session.get(Todo, record.todo_id)`). -/
def get_todo_by_idempotency_key (db : DB) (idempotency_key : String) : Option Todo :=
  match db.idem.find? (fun r => r.idempotency_key == idempotency_key) with
  | some record => db.todos.find? (fun t => t.id == record.todo_id)
  | none => none

/-- `create_todo` (`services/todo_crud.py`): insert a row built from the
validated input, commit, and return the refreshed row with its
server-assigned id and timestamp. -/
def create_todo (db : DB) (todo : TodoCreate) : DB × Todo :=
  let todo_item : Todo :=
    { id := db.next_todo_id
      title := todo.title
      description := todo.description
      is_completed := some todo.is_completed
      created_at := db.now }
  ({ db with
      todos := db.todos ++ [todo_item]
      next_todo_id := db.next_todo_id + 1
      now := db.now + 1 },
   todo_item)

/-- Result of `create_todo_with_idempotency`: the `(todo, is_new)` pair
on success, or the `IntegrityError` that `session.commit()` raises when
inserting a duplicate into the UNIQUE `idempotency_key` column. -/
inductive CreateResult where
  | ok (todo : Todo) (is_new : Bool)
  | integrityError
deriving Repr, DecidableEq

/-- `create_todo_with_idempotency` (`services/todo_crud.py`):
1. if a truthy key is given and the ledger already has it, return the
   cached todo with `is_new = False` and no state change;
2. otherwise insert (and commit) a new todo;
3. then, only for a truthy key, insert (and commit) the ledger record —
   this second commit raises `IntegrityError` if a record with the same
   key already exists (UNIQUE constraint), leaving the todo from step 2
   committed but no new ledger row. -/
def create_todo_with_idempotency (db : DB) (todo : TodoCreate)
    (idempotency_key : Option String) : DB × CreateResult :=
  let cached : Option Todo :=
    if pyTruthy idempotency_key then
      get_todo_by_idempotency_key db (idempotency_key.getD "")
    else none
  match cached with
  | some cached_todo => (db, .ok cached_todo false)
  | none =>
    let (db1, todo_item) := create_todo db todo
    if pyTruthy idempotency_key then
      let key := idempotency_key.getD ""
      if db1.idem.any (fun r => r.idempotency_key == key) then
        (db1, .integrityError)
      else
        let record : TodoIdempotency :=
          { id := db1.next_idem_id
            idempotency_key := key
            todo_id := todo_item.id
            created_at := db1.now }
        ({ db1 with
            idem := db1.idem ++ [record]
            next_idem_id := db1.next_idem_id + 1
            now := db1.now + 1 },
         .ok todo_item true)
    else (db1, .ok todo_item true)

/-- `get_todo` (`services/todo_crud.py`): primary-key lookup,
`session.get(Todo, todo_id)`. -/
def get_todo (db : DB) (todo_id : Nat) : Option Todo :=
  db.todos.find? (fun t => t.id == todo_id)

/-- Outcome of `update_todo`: `None` for an absent id, the refreshed row
on success, or the `IntegrityError` that `session.commit()` raises when
the `setattr` loop has put NULL into the NOT NULL `title` column. -/
inductive UpdateResult where
  | notFound
  | integrityError
  | updated (todo : Todo)
deriving Repr, DecidableEq

/-- The row produced by the `setattr` loop of `update_todo` when the
explicitly set title (if any) is the non-null `new_title`: exactly the
explicitly set fields are overwritten, explicit nulls included. -/
def appliedUpdate (todo_item : Todo) (todo : TodoUpdate) (new_title : String) : Todo :=
  { todo_item with
    title := new_title
    description := todo.description.getD todo_item.description
    is_completed := todo.is_completed.getD todo_item.is_completed }

/-- `update_todo` (`services/todo_crud.py`): primary-key lookup
(`session.get`); `None` when absent; otherwise `setattr` each field of
`model_dump(exclude_unset=True)` and commit.  A title explicitly set to
null reaches the commit as NULL in the NOT NULL `title` column, so the
commit raises `IntegrityError` and the transaction rolls back with the
store unchanged. -/
def update_todo (db : DB) (todo_id : Nat) (todo : TodoUpdate) : DB × UpdateResult :=
  match db.todos.find? (fun t => t.id == todo_id) with
  | none => (db, .notFound)
  | some todo_item =>
    match todo.title.getD (some todo_item.title) with
    | none => (db, .integrityError)
    | some new_title =>
      let updated := appliedUpdate todo_item todo new_title
      ({ db with
          todos := db.todos.map (fun t => if t.id == todo_id then updated else t)
          now := db.now + 1 },
       .updated updated)

/-- `delete_todo` (`services/todo_crud.py`): primary-key lookup; `False`
if absent, otherwise delete the row, commit, and return `True`.  The
ledger is not touched (SQLite does not enforce the foreign key by
default, so a referenced todo can be deleted, leaving the ledger row
dangling). -/
def delete_todo (db : DB) (todo_id : Nat) : DB × Bool :=
  match db.todos.find? (fun t => t.id == todo_id) with
  | none => (db, false)
  | some _ =>
    ({ db with todos := db.todos.filter (fun t => t.id != todo_id) }, true)

/-- `delete_todo_endpoint` (`workshop/00_personal_TODO/todo_api.py`):
calls `delete_todo` and returns `None` with status 204.  The boolean
result of `delete_todo` is discarded, so the endpoint answers 204 even
when the id was absent. -/
def delete_todo_endpoint (db : DB) (todo_id : Nat) : DB × HttpResponse Unit :=
  let (db1, _result) := delete_todo db todo_id
  (db1, .ok 204 ())

/-- The mutating operations reachable through this iteration's API
(`todo_api.py`): create (POST, always routed through
`create_todo_with_idempotency`), partial update (PUT, `update_todo`) and
hard delete (DELETE, `delete_todo`).  `get_todo` (GET) performs no
mutation. -/
inductive Op where
  | opCreate (todo : TodoCreate) (idempotency_key : Option String)
  | opUpdate (todo_id : Nat) (todo : TodoUpdate)
  | opDelete (todo_id : Nat)

/-- State transition of one API operation. -/
def execOp (db : DB) : Op → DB
  | .opCreate todo key => (create_todo_with_idempotency db todo key).1
  | .opUpdate todo_id todo => (update_todo db todo_id todo).1
  | .opDelete todo_id => (delete_todo db todo_id).1

/-- State after a sequence of API operations. -/
def execOps (db : DB) : List Op → DB
  | [] => db
  | op :: ops => execOps (execOp db op) ops

/-- A database state is reachable when some sequence of API operations
produces it from the freshly initialised database. -/
def Reachable (db : DB) : Prop :=
  ∃ ops : List Op, execOps DB.empty ops = db

/-- Structural facts the database engine guarantees on every state this
iteration can reach: todo ids stay below the autoincrement counter and
are primary-key unique; ledger keys are non-empty (a falsy key is never
written) and UNIQUE-constraint distinct. -/
structure DBInv (db : DB) : Prop where
  ids_lt : ∀ t ∈ db.todos, t.id < db.next_todo_id
  ids_uniq : ∀ t ∈ db.todos, ∀ t' ∈ db.todos, t.id = t'.id → t = t'
  keys_ne : ∀ r ∈ db.idem, r.idempotency_key ≠ ""
  keys_uniq : ∀ r ∈ db.idem, ∀ r' ∈ db.idem,
    r.idempotency_key = r'.idempotency_key → r = r'

end WS0

namespace WS1

/-- Row of the `todos` table of the soft-delete iteration
(`workshop/00_personal_todo/app/models.py`).  The `deleted_at` column is
managed by an alembic migration (the migration scripts are not in the
snapshot); its presence and semantics — `none` = active, `some _` =
soft-deleted — are required by every function of
`app/services/todo_crud.py`.  `is_completed = Column(Boolean,
default=False)` does not say `nullable=False`, so the column is
nullable: rows created through the API always carry a value, but an
update can store NULL. -/
structure Todo where
  id : Nat
  title : String
  description : Option String
  is_completed : Option Bool
  created_at : Nat
  deleted_at : Option Nat
deriving Repr, DecidableEq

/-- Validated body of a create request (`TodoCreate`). -/
structure TodoCreate where
  title : String
  description : Option String
  is_completed : Bool
deriving Repr, DecidableEq

/-- Validated body of a partial update (`TodoUpdate`): every field is
declared `... | None = None`, and `model_dump(exclude_unset=True)`
passes exactly the explicitly set fields — explicitly set nulls
included — to the `setattr` loop.  The outer `Option` is unset/set; the
inner one is the set value, which may itself be `null` (`some none`). -/
structure TodoUpdate where
  title : Option (Option String)
  description : Option (Option String)
  is_completed : Option (Option Bool)
deriving Repr, DecidableEq

/-- The update with no field set: `model_dump(exclude_unset=True)` is the
empty dict. -/
def TodoUpdate.empty : TodoUpdate :=
  { title := none, description := none, is_completed := none }

/-- Database state of the soft-delete iteration: the `todos` table, its
autoincrement counter, and the logical clock for server-assigned
timestamps. -/
structure DB where
  todos : List Todo
  next_id : Nat
  now : Nat
deriving Repr, DecidableEq

/-- The freshly initialised database. -/
def DB.empty : DB := { todos := [], next_id := 1, now := 0 }

/-- `create_todo` (`app/services/todo_crud.py`): insert a row from the
validated input, commit, return the refreshed row.  A new row is active:
`deleted_at` is NULL. -/
def create_todo (db : DB) (todo : TodoCreate) : DB × Todo :=
  let todo_item : Todo :=
    { id := db.next_id
      title := todo.title
      description := todo.description
      is_completed := some todo.is_completed
      created_at := db.now
      deleted_at := none }
  ({ db with
      todos := db.todos ++ [todo_item]
      next_id := db.next_id + 1
      now := db.now + 1 },
   todo_item)

/-- `list_todos(session, include_deleted=False)`
(`app/services/todo_crud.py`, the version present in the snapshot):
all rows, minus the soft-deleted ones unless `include_deleted`. -/
def list_todos (db : DB) (include_deleted : Bool) : List Todo :=
  if include_deleted then db.todos
  else db.todos.filter (fun t => t.deleted_at == none)

/-- `get_todo` (`app/services/todo_crud.py`): the row with the given id
whose `deleted_at` is NULL, if any. -/
def get_todo (db : DB) (todo_id : Nat) : Option Todo :=
  db.todos.find? (fun t => t.id == todo_id && t.deleted_at == none)

/-- `get_all_completed_todo` (`app/services/todo_crud.py`): all active
rows whose completion flag `is TRUE` (a NULL flag is not `TRUE`). -/
def get_all_completed_todo (db : DB) : List Todo :=
  db.todos.filter (fun t => t.deleted_at == none && t.is_completed == some true)

/-- Outcome of `update_todo`: `None` for an absent or soft-deleted id,
the refreshed row on success, or the `IntegrityError` that
`session.commit()` raises when the `setattr` loop has put NULL into the
NOT NULL `title` column. -/
inductive UpdateResult where
  | notFound
  | integrityError
  | updated (todo : Todo)
deriving Repr, DecidableEq

/-- The row produced by the `setattr` loop of `update_todo` when the
explicitly set title (if any) is the non-null `new_title`: exactly the
explicitly set fields are overwritten, explicit nulls included. -/
def appliedUpdate (todo_item : Todo) (todo : TodoUpdate) (new_title : String) : Todo :=
  { todo_item with
    title := new_title
    description := todo.description.getD todo_item.description
    is_completed := todo.is_completed.getD todo_item.is_completed }

/-- `update_todo` (`app/services/todo_crud.py`): primary-key lookup
(`session.get`, which also finds soft-deleted rows), then reject when
the row is absent or soft-deleted; otherwise `setattr` each field of
`model_dump(exclude_unset=True)` and commit, returning the refreshed
row.  A title explicitly set to null reaches the commit as NULL in the
NOT NULL `title` column, so the commit raises `IntegrityError` and the
transaction rolls back with the store unchanged. -/
def update_todo (db : DB) (todo_id : Nat) (todo : TodoUpdate) : DB × UpdateResult :=
  match db.todos.find? (fun t => t.id == todo_id) with
  | none => (db, .notFound)
  | some todo_item =>
    if todo_item.deleted_at ≠ none then (db, .notFound)
    else
      match todo.title.getD (some todo_item.title) with
      | none => (db, .integrityError)
      | some new_title =>
        let updated := appliedUpdate todo_item todo new_title
        ({ db with
            todos := db.todos.map (fun t => if t.id == todo_id then updated else t)
            now := db.now + 1 },
         .updated updated)

/-- `delete_todo` (`app/services/todo_crud.py`), the hard delete:
primary-key lookup with no `deleted_at` filter — a soft-deleted row is
found too — then permanent row removal. -/
def delete_todo (db : DB) (todo_id : Nat) : DB × Bool :=
  match db.todos.find? (fun t => t.id == todo_id) with
  | none => (db, false)
  | some _ =>
    ({ db with todos := db.todos.filter (fun t => t.id != todo_id) }, true)

/-- `soft_delete_todo` (`app/services/todo_crud.py`): look up the row
with the given id and `deleted_at` NULL; if absent (or already
soft-deleted) return `False`, otherwise stamp `deleted_at` with the
current time, commit, return `True`. -/
def soft_delete_todo (db : DB) (todo_id : Nat) : DB × Bool :=
  match db.todos.find? (fun t => t.id == todo_id && t.deleted_at == none) with
  | none => (db, false)
  | some _ =>
    ({ db with
        todos := db.todos.map (fun t =>
          if t.id == todo_id then { t with deleted_at := some db.now } else t)
        now := db.now + 1 },
     true)

/-- `restore_todo` (`app/services/todo_crud.py`): look up the row with
the given id and `deleted_at` NOT NULL; if absent (or not soft-deleted)
return `None`, otherwise clear `deleted_at`, commit, and return the
refreshed row. -/
def restore_todo (db : DB) (todo_id : Nat) : DB × Option Todo :=
  match db.todos.find? (fun t => t.id == todo_id && t.deleted_at != none) with
  | none => (db, none)
  | some todo_item =>
    let restored := { todo_item with deleted_at := none }
    ({ db with
        todos := db.todos.map (fun t => if t.id == todo_id then restored else t)
        now := db.now + 1 },
     some restored)

/-- Pagination metadata (`PaginationInfo` of `app/schemas.py`), built by
`list_todos_endpoint`. -/
structure PaginationInfo where
  page : Nat
  limit : Nat
  total_items : Nat
  total_pages : Nat
  has_next : Bool
  has_previous : Bool
deriving Repr, DecidableEq

/-- `math.ceil(total / limit) if total else 0`, the total-page count
computed inline by `list_todos_endpoint`
(`app/api/v1/endpoints/todo.py`).  Python's true division followed by
`math.ceil` is the exact rational ceiling. -/
def total_pages_of (total limit : Nat) : Nat :=
  if total = 0 then 0 else ⌈(total : ℚ) / (limit : ℚ)⌉₊

/-- The `PaginationInfo` literal built by `list_todos_endpoint`:
`total_pages` as above, `has_next = page < total_pages`,
`has_previous = page > 1`. -/
def paginationInfo (page limit total : Nat) : PaginationInfo :=
  { page := page
    limit := limit
    total_items := total
    total_pages := total_pages_of total limit
    has_next := decide (page < total_pages_of total limit)
    has_previous := decide (page > 1) }

/-- Case-insensitive substring test, the behaviour of the SQL
`LOWER(title) LIKE LOWER(CONCAT(CHR(37), q, CHR(37)))` filter described
by the spec for the title search. -/
def titleMatches (title : String) (needle : String) : Bool :=
  (List.range (title.toLower.data.length + 1)).any
    (fun i => needle.toLower.data.isPrefixOf (title.toLower.data.drop i))

/-- Modelled from the spec: the paginated
`list_todos(session, page, limit, q)` that `list_todos_endpoint` calls is
not present under the snapshot's `app/services/todo_crud.py` (the
`list_todos` there still has the older `include_deleted` signature).  Per
the spec it returns the active items in insertion order, filtered
case-insensitively by substring match on the title when `q` is given,
sliced to the 1-based page of size `limit`, together with the total
matching count before pagination. -/
def list_todos_paged (db : DB) (page limit : Nat) (q : Option String) :
    List Todo × Nat :=
  let active := db.todos.filter (fun t => t.deleted_at == none)
  let matching :=
    match q with
    | none => active
    | some needle => active.filter (fun t => titleMatches t.title needle)
  (( matching.drop ((page - 1) * limit)).take limit, matching.length)

/-- `list_todos_endpoint` (`app/api/v1/endpoints/todo.py`): fetch the
page and the pre-pagination total, then assemble the response with its
pagination metadata. -/
def list_todos_endpoint (db : DB) (page limit : Nat) (q : Option String) :
    List Todo × PaginationInfo :=
  let (todos, total) := list_todos_paged db page limit q
  (todos, paginationInfo page limit total)

/-- `get_todo_endpoint` (`app/api/v1/endpoints/todo.py`): 200 with the
item, or a 404 whose detail names the requested id. -/
def get_todo_endpoint (db : DB) (todo_id : Nat) : HttpResponse Todo :=
  match get_todo db todo_id with
  | none => .err 404 ("TODO item not found with id " ++ toString todo_id)
  | some todo_item => .ok 200 todo_item

/-- `soft_delete_todo_endpoint` (`app/api/v1/endpoints/todo.py`): 204 on
success, or a 404 whose detail names the requested id. -/
def soft_delete_todo_endpoint (db : DB) (todo_id : Nat) :
    DB × HttpResponse Unit :=
  let (db1, result) := soft_delete_todo db todo_id
  if result then (db1, .ok 204 ())
  else
    (db1, .err 404 ("TODO item not found or already deleted with id " ++ toString todo_id))

/-- Primary-key well-formedness of a database state: `id` is the primary
key of the `todos` table, so the store never holds two distinct rows with
the same id.  Enforced by the database engine on every insert. -/
def DB.WF (db : DB) : Prop :=
  ∀ t ∈ db.todos, ∀ t' ∈ db.todos, t.id = t'.id → t = t'

end WS1

/-! ### Supporting lemmas -/

/-- `find?` returns the designated element when it is a member satisfying
the predicate and is the only member doing so. -/
theorem find?_eq_some_unique {α : Type} (p : α → Bool) (l : List α) (x : α)
    (hx : x ∈ l) (hpx : p x = true) (huniq : ∀ y ∈ l, p y = true → y = x) :
    l.find? p = some x := by
  induction l with
  | nil => cases hx
  | cons a l ih =>
    by_cases hpa : p a = true
    · have hax : a = x := huniq a (List.mem_cons_self a l) hpa
      subst hax
      exact List.find?_cons_of_pos _ hpa
    · rw [List.find?_cons_of_neg _ (by simpa using hpa)]
      rcases List.mem_cons.1 hx with h | h
      · exact absurd (h ▸ hpx) hpa
      · exact ih h (fun y hy hpy => huniq y (List.mem_cons_of_mem a hy) hpy)

/-- The exact ceiling of a positive rational division of naturals agrees
with the rounded-up natural division. -/
theorem ceil_div_nat (a b : Nat) (ha : 1 ≤ a) (hb : 1 ≤ b) :
    ⌈(a : ℚ) / (b : ℚ)⌉₊ = (a + b - 1) / b := by
  have hb0 : (0:ℚ) < (b:ℚ) := by exact_mod_cast hb
  set n := (a + b - 1) / b with hn
  have hnb : n * b ≤ a + b - 1 := Nat.div_mul_le_self _ _
  have hlt : a + b - 1 < (n + 1) * b :=
    (Nat.div_lt_iff_lt_mul (by omega)).1 (Nat.lt_succ_self n)
  have hn1 : 1 ≤ n := by
    rw [hn]
    exact (Nat.le_div_iff_mul_le (by omega)).2 (by omega)
  have hsucc : (n - 1 + 1) * b = (n - 1) * b + b := Nat.succ_mul _ _
  have hpred : n - 1 + 1 = n := Nat.succ_pred_eq_of_pos hn1
  have hmul2 : (n + 1) * b = n * b + b := Nat.succ_mul _ _
  rw [hpred] at hsucc
  refine (Nat.ceil_eq_iff (by omega)).2 ⟨?_, ?_⟩
  · rw [lt_div_iff₀ hb0]
    have h : (n - 1) * b < a := by omega
    exact_mod_cast h
  · rw [div_le_iff₀ hb0]
    have h : a ≤ n * b := by omega
    exact_mod_cast h

/-- `total_pages_of` in closed natural-number form. -/
theorem total_pages_eq (total limit : Nat) (hl : 1 ≤ limit) :
    WS1.total_pages_of total limit = (total + limit - 1) / limit := by
  by_cases h : total = 0
  · subst h
    rw [WS1.total_pages_of, if_pos rfl, Nat.div_eq_of_lt (by omega)]
  · rw [WS1.total_pages_of, if_neg h]
    exact ceil_div_nat total limit (by omega) hl

namespace WS0

/-- `create_todo_with_idempotency` on a ledger hit: the cached todo comes
back with `is_new = false` and the state is untouched. -/
theorem cwi_hit (db : DB) (todo : TodoCreate) (key : String) (t : Todo)
    (hk : key ≠ "") (h : get_todo_by_idempotency_key db key = some t) :
    create_todo_with_idempotency db todo (some key) = (db, .ok t false) := by
  have hk' : pyTruthy (some key) = true := by simp [pyTruthy, hk]
  simp [create_todo_with_idempotency, hk', h]

/-- `create_todo_with_idempotency` with a falsy key (`None` or the empty
string): plain `create_todo`, the ledger is not consulted and not
written. -/
theorem cwi_falsy (db : DB) (todo : TodoCreate) (key : Option String)
    (hk : pyTruthy key = false) :
    create_todo_with_idempotency db todo key =
      ((create_todo db todo).1, .ok (create_todo db todo).2 true) := by
  simp [create_todo_with_idempotency, hk]

/-- `create_todo_with_idempotency` when the lookup misses but a ledger
row with the key exists (its todo was hard-deleted): the new todo is
committed, then the ledger insert raises `IntegrityError`. -/
theorem cwi_miss_dup (db : DB) (todo : TodoCreate) (key : String)
    (hk : key ≠ "") (hmiss : get_todo_by_idempotency_key db key = none)
    (hdup : db.idem.any (fun r => r.idempotency_key == key) = true) :
    create_todo_with_idempotency db todo (some key) =
      ((create_todo db todo).1, .integrityError) := by
  have hk' : pyTruthy (some key) = true := by simp [pyTruthy, hk]
  simp [create_todo_with_idempotency, hk', hmiss, create_todo, hdup]

/-- `create_todo_with_idempotency` on a fresh non-empty key: the todo and
its ledger record are both inserted and the todo comes back with
`is_new = true`. -/
theorem cwi_fresh (db : DB) (todo : TodoCreate) (key : String)
    (hk : key ≠ "") (hmiss : get_todo_by_idempotency_key db key = none)
    (hdup : db.idem.any (fun r => r.idempotency_key == key) = false) :
    create_todo_with_idempotency db todo (some key) =
      ({ todos := db.todos ++ [(create_todo db todo).2]
         idem := db.idem ++
           [{ id := db.next_idem_id
              idempotency_key := key
              todo_id := db.next_todo_id
              created_at := db.now + 1 }]
         next_todo_id := db.next_todo_id + 1
         next_idem_id := db.next_idem_id + 1
         now := db.now + 2 },
       .ok (create_todo db todo).2 true) := by
  have hk' : pyTruthy (some key) = true := by simp [pyTruthy, hk]
  simp [create_todo_with_idempotency, hk', hmiss, create_todo, hdup]

/-- The freshly initialised database satisfies the invariant. -/
theorem inv_empty : DBInv DB.empty := by
  constructor <;> intro t ht <;> simp [DB.empty] at ht

/-- `create_todo` preserves the invariant. -/
theorem inv_create (db : DB) (todo : TodoCreate) (h : DBInv db) :
    DBInv (create_todo db todo).1 := by
  constructor
  · intro t ht
    simp only [create_todo, List.mem_append, List.mem_singleton] at ht ⊢
    rcases ht with ht | ht
    · exact Nat.lt_succ_of_lt (h.ids_lt t ht)
    · subst ht; exact Nat.lt_succ_self _
  · intro t ht t' ht' hid
    simp only [create_todo, List.mem_append, List.mem_singleton] at ht ht'
    rcases ht with ht | ht <;> rcases ht' with ht' | ht'
    · exact h.ids_uniq t ht t' ht' hid
    · subst ht'
      exact absurd hid (Nat.ne_of_lt (h.ids_lt t ht))
    · subst ht
      exact absurd hid.symm (Nat.ne_of_lt (h.ids_lt t' ht'))
    · rw [ht, ht']
  · intro r hr
    simp only [create_todo] at hr
    exact h.keys_ne r hr
  · intro r hr r' hr'
    simp only [create_todo] at hr hr'
    exact h.keys_uniq r hr r' hr'

/-- `create_todo_with_idempotency` preserves the invariant, whatever the
key and the ledger state. -/
theorem inv_cwi (db : DB) (todo : TodoCreate) (key : Option String)
    (h : DBInv db) : DBInv (create_todo_with_idempotency db todo key).1 := by
  by_cases htr : pyTruthy key = true
  · obtain ⟨k, rfl⟩ : ∃ k, key = some k := by
      cases key with
      | none => simp [pyTruthy] at htr
      | some k => exact ⟨k, rfl⟩
    have hk : k ≠ "" := by simpa [pyTruthy] using htr
    cases hlook : get_todo_by_idempotency_key db k with
    | some t => rw [cwi_hit db todo k t hk hlook]; exact h
    | none =>
      cases hdup : db.idem.any (fun r => r.idempotency_key == k) with
      | true =>
        rw [cwi_miss_dup db todo k hk hlook hdup]
        exact inv_create db todo h
      | false =>
        rw [cwi_fresh db todo k hk hlook hdup]
        have hbase := inv_create db todo h
        constructor
        · intro t ht
          exact hbase.ids_lt t (by simpa [create_todo] using ht)
        · intro t ht t' ht' hid
          exact hbase.ids_uniq t (by simpa [create_todo] using ht)
            t' (by simpa [create_todo] using ht') hid
        · intro r hr
          simp only [List.mem_append, List.mem_singleton] at hr
          rcases hr with hr | hr
          · exact h.keys_ne r hr
          · subst hr; exact hk
        · intro r hr r' hr'
          simp only [List.mem_append, List.mem_singleton] at hr hr'
          have hfresh : ∀ s ∈ db.idem, s.idempotency_key ≠ k := by
            intro s hs he
            have hany : db.idem.any (fun r => r.idempotency_key == k) = true :=
              List.any_eq_true.2 ⟨s, hs, by simp [he]⟩
            rw [hdup] at hany
            exact Bool.false_ne_true hany
          rcases hr with hr | hr <;> rcases hr' with hr' | hr'
          · exact h.keys_uniq r hr r' hr'
          · intro he; subst hr'; exact absurd (by simpa using he) (hfresh r hr)
          · intro he; subst hr; exact absurd (by simpa using he.symm) (hfresh r' hr')
          · intro _; rw [hr, hr']
  · have hf : pyTruthy key = false := by
      cases hpt : pyTruthy key
      · rfl
      · exact absurd hpt htr
    rw [cwi_falsy db todo key hf]
    exact inv_create db todo h

/-- `delete_todo` preserves the invariant. -/
theorem inv_delete (db : DB) (todo_id : Nat) (h : DBInv db) :
    DBInv (delete_todo db todo_id).1 := by
  rw [delete_todo]
  cases hfind : db.todos.find? (fun t => t.id == todo_id) with
  | none => exact h
  | some t0 =>
    constructor
    · intro t ht
      exact h.ids_lt t (List.mem_of_mem_filter ht)
    · intro t ht t' ht'
      exact h.ids_uniq t (List.mem_of_mem_filter ht) t' (List.mem_of_mem_filter ht')
    · exact h.keys_ne
    · exact h.keys_uniq

/-- The row rewritten by the `setattr` loop keeps its primary key. -/
theorem appliedUpdate_id (todo_item : Todo) (todo : TodoUpdate) (new_title : String) :
    (appliedUpdate todo_item todo new_title).id = todo_item.id := rfl

/-- `update_todo` preserves the invariant. -/
theorem inv_update (db : DB) (todo_id : Nat) (u : TodoUpdate) (h : DBInv db) :
    DBInv (update_todo db todo_id u).1 := by
  rw [update_todo]
  cases hfind : db.todos.find? (fun t => t.id == todo_id) with
  | none => exact h
  | some todo_item =>
    dsimp only
    cases hti : u.title.getD (some todo_item.title) with
    | none => exact h
    | some new_title =>
      dsimp only
      have hitem : todo_item.id = todo_id := by
        simpa using List.find?_some hfind
      have hfid : ∀ x : Todo,
          (if (x.id == todo_id) = true then appliedUpdate todo_item u new_title else x).id
            = x.id := by
        intro x
        by_cases hc : (x.id == todo_id) = true
        · rw [if_pos hc, appliedUpdate_id]
          have hx : x.id = todo_id := by simpa using hc
          omega
        · rw [if_neg hc]
      constructor
      · intro t' ht'
        have ht'' : t' ∈ db.todos.map
            (fun x => if x.id == todo_id then appliedUpdate todo_item u new_title else x) := ht'
        obtain ⟨x, hx, rfl⟩ := List.mem_map.1 ht''
        have e := hfid x
        have hlt := h.ids_lt x hx
        show (if (x.id == todo_id) = true then appliedUpdate todo_item u new_title else x).id
          < db.next_todo_id
        omega
      · intro t1 ht1 t2 ht2 heq
        have ht1' : t1 ∈ db.todos.map
            (fun x => if x.id == todo_id then appliedUpdate todo_item u new_title else x) := ht1
        have ht2' : t2 ∈ db.todos.map
            (fun x => if x.id == todo_id then appliedUpdate todo_item u new_title else x) := ht2
        obtain ⟨x1, hx1, rfl⟩ := List.mem_map.1 ht1'
        obtain ⟨x2, hx2, rfl⟩ := List.mem_map.1 ht2'
        have e1 := hfid x1
        have e2 := hfid x2
        have heq' : (if (x1.id == todo_id) = true then
              appliedUpdate todo_item u new_title else x1).id
            = (if (x2.id == todo_id) = true then
              appliedUpdate todo_item u new_title else x2).id := heq
        have h12 : x1.id = x2.id := by omega
        have hx12 : x1 = x2 := h.ids_uniq x1 hx1 x2 hx2 h12
        rw [hx12]
      · exact h.keys_ne
      · exact h.keys_uniq

/-- Every API operation preserves the invariant. -/
theorem inv_execOp (db : DB) (op : Op) (h : DBInv db) : DBInv (execOp db op) := by
  cases op with
  | opCreate todo key => exact inv_cwi db todo key h
  | opUpdate todo_id todo => exact inv_update db todo_id todo h
  | opDelete todo_id => exact inv_delete db todo_id h

/-- Every reachable database state satisfies the invariant. -/
theorem inv_reachable (db : DB) (h : Reachable db) : DBInv db := by
  obtain ⟨ops, hops⟩ := h
  subst hops
  have main : ∀ (ops : List Op) (d : DB), DBInv d → DBInv (execOps d ops) := by
    intro ops
    induction ops with
    | nil => intro d hd; exact hd
    | cons op rest ih =>
      intro d hd
      exact ih (execOp d op) (inv_execOp d op hd)
  exact main ops DB.empty inv_empty

/-- On an invariant state, looking up the key of a stored ledger record
whose todo is still present returns exactly that todo. -/
theorem lookup_hit (db : DB) (h : DBInv db) (r : TodoIdempotency)
    (hr : r ∈ db.idem) (t : Todo) (ht : t ∈ db.todos) (hid : t.id = r.todo_id) :
    get_todo_by_idempotency_key db r.idempotency_key = some t := by
  rw [get_todo_by_idempotency_key]
  have hfind : db.idem.find? (fun s => s.idempotency_key == r.idempotency_key) = some r :=
    find?_eq_some_unique _ _ r hr (by simp)
      (fun y hy hpy => h.keys_uniq y hy r hr (by simpa using hpy))
  rw [hfind]
  exact find?_eq_some_unique _ _ t ht (by simp [hid])
    (fun y hy hpy => h.ids_uniq y hy t ht (by simp at hpy; omega))

/-- Looking up a key no ledger record carries misses. -/
theorem lookup_fresh (db : DB) (key : String)
    (hfresh : ∀ r ∈ db.idem, r.idempotency_key ≠ key) :
    get_todo_by_idempotency_key db key = none := by
  rw [get_todo_by_idempotency_key]
  have hnone : db.idem.find? (fun s => s.idempotency_key == key) = none := by
    rw [List.find?_eq_none]
    intro s hs
    simpa using hfresh s hs
  rw [hnone]

/-- C1, counterexample to the claim as stated: with the empty string as
the idempotency key, the second identical call reports `is_new = true`
(not `false`), the two calls create two distinct items, and the store
holds no item linked to that key at all (rather than exactly one). -/
theorem empty_key_twice_creates_two_items :
    (let input : TodoCreate := { title := "t", description := none, is_completed := false }
     let r1 := create_todo_with_idempotency DB.empty input (some "")
     let r2 := create_todo_with_idempotency r1.1 input (some "")
     r2.2 = .ok { id := 2, title := "t", description := none,
                  is_completed := some false, created_at := 1 } true
     ∧ r2.1.todos.length = 2
     ∧ r2.1.idem.countP (fun r => r.idempotency_key == "") = 0) := by
  refine ⟨rfl, rfl, rfl⟩

/-- C1 (amended): for every input and every NON-EMPTY idempotency key
that is new to the ledger, calling `create_todo_with_idempotency` twice
with the same key and input returns the same item id both times, the
second call reports `is_new = false`, and the store contains exactly one
ledger record and one todo for that key. -/
theorem create_with_idempotency_replay (db : DB) (h : Reachable db)
    (input : TodoCreate) (key : String) (hk : key ≠ "")
    (hfresh : ∀ r ∈ db.idem, r.idempotency_key ≠ key) :
    ∃ db1 t,
      create_todo_with_idempotency db input (some key) = (db1, .ok t true)
      ∧ create_todo_with_idempotency db1 input (some key) = (db1, .ok t false)
      ∧ db1.idem.countP (fun r => r.idempotency_key == key) = 1
      ∧ db1.todos.countP (fun t' => t'.id == t.id) = 1 := by
  have hinv := inv_reachable db h
  have hmiss : get_todo_by_idempotency_key db key = none := lookup_fresh db key hfresh
  have hdup : db.idem.any (fun r => r.idempotency_key == key) = false := by
    rw [List.any_eq_false]
    intro s hs
    simpa using hfresh s hs
  have hfe := cwi_fresh db input key hk hmiss hdup
  have hinv1 : DBInv (create_todo_with_idempotency db input (some key)).1 :=
    inv_cwi db input (some key) hinv
  rw [hfe] at hinv1
  set rcd : TodoIdempotency :=
    { id := db.next_idem_id, idempotency_key := key,
      todo_id := db.next_todo_id, created_at := db.now + 1 } with hrcd
  set t : Todo := (create_todo db input).2 with ht
  set db1 : DB :=
    { todos := db.todos ++ [t], idem := db.idem ++ [rcd],
      next_todo_id := db.next_todo_id + 1, next_idem_id := db.next_idem_id + 1,
      now := db.now + 2 } with hdb1
  have hinv1' : DBInv db1 := hinv1
  refine ⟨db1, t, hfe, ?_, ?_, ?_⟩
  · refine cwi_hit db1 input key t hk ?_
    have hmem_r : rcd ∈ db1.idem := by
      rw [hdb1]
      exact List.mem_append_right _ (List.mem_singleton_self _)
    have hmem_t : t ∈ db1.todos := by
      rw [hdb1]
      exact List.mem_append_right _ (List.mem_singleton_self _)
    have hid : t.id = rcd.todo_id := by
      rw [ht, hrcd]
      simp [create_todo]
    have hlook := lookup_hit db1 hinv1' rcd hmem_r t hmem_t hid
    rw [hrcd] at hlook
    exact hlook
  · rw [hdb1]
    show (db.idem ++ [rcd]).countP (fun r => r.idempotency_key == key) = 1
    rw [List.countP_append]
    have h0 : db.idem.countP (fun r => r.idempotency_key == key) = 0 := by
      rw [List.countP_eq_zero]
      intro s hs
      simpa using hfresh s hs
    simp [h0, hrcd]
  · rw [hdb1]
    show (db.todos ++ [t]).countP (fun t' => t'.id == t.id) = 1
    rw [List.countP_append]
    have h0 : db.todos.countP (fun t' => t'.id == t.id) = 0 := by
      rw [List.countP_eq_zero]
      intro s hs
      have hlt := hinv.ids_lt s hs
      rw [ht]
      simp [create_todo]
      omega
    simp [h0]

/-- C1, witness for the amended theorem at the empty database and the
key "key-1". -/
theorem create_with_idempotency_replay_witness :
    ∃ db1 t,
      create_todo_with_idempotency DB.empty
          { title := "Buy milk", description := none, is_completed := false }
          (some "key-1") = (db1, .ok t true)
      ∧ create_todo_with_idempotency db1
          { title := "Buy milk", description := none, is_completed := false }
          (some "key-1") = (db1, .ok t false)
      ∧ db1.idem.countP (fun r => r.idempotency_key == "key-1") = 1
      ∧ db1.todos.countP (fun t' => t'.id == t.id) = 1 :=
  create_with_idempotency_replay DB.empty ⟨[], rfl⟩
    { title := "Buy milk", description := none, is_completed := false }
    "key-1" (by decide) (by intro r hr; simp [DB.empty] at hr)

/-- C8: the claim misreads `delete_todo_endpoint` of the idempotency
iteration — the endpoint discards the boolean returned by `delete_todo`,
so when the id is absent (the data-access layer reports `False`) it
still answers 204 and never produces the documented 404. -/
theorem delete_endpoint_ignores_absence :
    (delete_todo DB.empty 1).2 = false
    ∧ delete_todo_endpoint DB.empty 1 = (DB.empty, .ok 204 ()) := by
  refine ⟨rfl, rfl⟩

/-- C9, counterexample to the claim as stated: pydantic accepts an empty
`title` — `title: str` has no `min_length` — and `create_todo` stores it,
so the store can hold a TodoItem with an empty title. -/
theorem empty_title_accepted :
    validate_todo_create { title := some "", description := none, is_completed := none }
      = some { title := "", description := none, is_completed := false }
    ∧ ((create_todo DB.empty
          { title := "", description := none, is_completed := false }).1.todos.map
        (fun t => t.title)) = [""] := by
  refine ⟨rfl, rfl⟩

/-- C9 (amended): validation rejects a create request exactly when the
`title` field is missing; any present string title — the empty string
included — passes validation and is stored verbatim by `create_todo`. -/
theorem title_validation_requires_presence_only (raw : RawTodoCreate) :
    (validate_todo_create raw = none ↔ raw.title = none)
    ∧ (∀ s, raw.title = some s →
        ∃ v, validate_todo_create raw = some v ∧ v.title = s
          ∧ ∀ db : DB, (create_todo db v).2.title = s
            ∧ (create_todo db v).2 ∈ (create_todo db v).1.todos) := by
  obtain ⟨title, description, is_completed⟩ := raw
  cases title with
  | none => exact ⟨by simp [validate_todo_create], by intro s hs; cases hs⟩
  | some s0 =>
    refine ⟨by simp [validate_todo_create], ?_⟩
    intro s hs
    obtain rfl : s0 = s := by injection hs
    refine ⟨_, rfl, rfl, ?_⟩
    intro db
    exact ⟨rfl, List.mem_append_right _ (List.mem_singleton_self _)⟩

/-- C9, witness for the amended theorem at a concrete present title. -/
theorem title_validation_requires_presence_only_witness :
    ∃ v, validate_todo_create
        { title := some "Buy milk", description := none, is_completed := none }
        = some v
      ∧ v.title = "Buy milk"
      ∧ ∀ db : DB, (create_todo db v).2.title = "Buy milk"
        ∧ (create_todo db v).2 ∈ (create_todo db v).1.todos :=
  (title_validation_requires_presence_only
    { title := some "Buy milk", description := none, is_completed := none }).2
    "Buy milk" rfl

/-- C10: the empty-string idempotency key is falsy, so
`create_todo_with_idempotency` behaves exactly as with no key: it creates
and returns a fresh todo with `is_new = true`, writes no ledger record,
and two successive calls with the empty key create two distinct items. -/
theorem empty_key_behaves_as_no_key (db : DB) (input : TodoCreate) :
    create_todo_with_idempotency db input (some "")
      = create_todo_with_idempotency db input none
    ∧ (create_todo_with_idempotency db input (some "")).2
      = .ok (create_todo db input).2 true
    ∧ ((create_todo_with_idempotency db input (some "")).1).idem = db.idem
    ∧ (∃ t1 t2,
        (create_todo_with_idempotency db input (some "")).2 = .ok t1 true
        ∧ (create_todo_with_idempotency
            (create_todo_with_idempotency db input (some "")).1 input (some "")).2
          = .ok t2 true
        ∧ t1.id ≠ t2.id
        ∧ (create_todo_with_idempotency
            (create_todo_with_idempotency db input (some "")).1 input
            (some "")).1.todos.length
          = db.todos.length + 2) := by
  have he : pyTruthy (some "") = false := by simp [pyTruthy]
  have h1 := cwi_falsy db input (some "") he
  have h2 := cwi_falsy db input none rfl
  refine ⟨h1.trans h2.symm, ?_, ?_, ?_⟩
  · rw [h1]
  · rw [h1]
    simp [create_todo]
  · refine ⟨(create_todo db input).2,
      (create_todo (create_todo db input).1 input).2, ?_, ?_, ?_, ?_⟩
    · rw [h1]
    · rw [h1]
      rw [cwi_falsy (create_todo db input).1 input (some "") he]
    · simp [create_todo]
    · rw [h1, cwi_falsy (create_todo db input).1 input (some "") he]
      simp [create_todo]

end WS0

namespace WS1

/-- C4: for every total, page and limit within the boundary bounds, the
pagination metadata built by `list_todos_endpoint` satisfies
`total_pages = ceil(total_items / limit)` (written as rounded-up natural
division), `total_pages = 0` when `total_items = 0`,
`has_next = (page < total_pages)` and `has_previous = (page > 1)`; in
particular `total_items = 0` gives `(0, false, false)` and
`total_items = 25, limit = 10, page = 3` gives
`total_pages = 3, has_next = false, has_previous = true`. -/
theorem pagination_metadata (total page limit : Nat)
    (_hp : 1 ≤ page) (hl : 1 ≤ limit) (_hl20 : limit ≤ 20) :
    ((paginationInfo page limit total).total_pages = (total + limit - 1) / limit)
    ∧ (total = 0 → (paginationInfo page limit total).total_pages = 0)
    ∧ ((paginationInfo page limit total).has_next
        = decide (page < (paginationInfo page limit total).total_pages))
    ∧ ((paginationInfo page limit total).has_previous = decide (1 < page))
    ∧ paginationInfo 1 10 0
      = { page := 1, limit := 10, total_items := 0, total_pages := 0,
          has_next := false, has_previous := false }
    ∧ paginationInfo 3 10 25
      = { page := 3, limit := 10, total_items := 25, total_pages := 3,
          has_next := false, has_previous := true } := by
  refine ⟨total_pages_eq total limit hl, ?_, rfl, rfl, ?_, ?_⟩
  · intro h
    subst h
    show total_pages_of 0 limit = 0
    rw [total_pages_of, if_pos rfl]
  · have h0 : total_pages_of 0 10 = 0 := by rw [total_pages_of, if_pos rfl]
    simp [paginationInfo, h0]
  · have h3 : total_pages_of 25 10 = 3 := by
      rw [total_pages_eq 25 10 (by omega)]
    simp [paginationInfo, h3]

/-- C4, witness: the amended-free theorem applied at
`total = 25, page = 3, limit = 10`. -/
theorem pagination_metadata_witness :
    (paginationInfo 3 10 25).total_pages = (25 + 10 - 1) / 10 :=
  (pagination_metadata 25 3 10 (by decide) (by decide) (by decide)).1

/-- C6: hard delete succeeds on every stored row — active or
soft-deleted — and removes it permanently: afterwards `restore_todo`
reports not-found and the row is invisible to `get_todo`, `update_todo`
and `list_todos`. -/
theorem hard_delete_is_permanent (db : DB) (t : Todo) (ht : t ∈ db.todos) :
    ∃ db1, delete_todo db t.id = (db1, true)
      ∧ (∀ x ∈ db1.todos, x.id ≠ t.id)
      ∧ restore_todo db1 t.id = (db1, none)
      ∧ get_todo db1 t.id = none
      ∧ (∀ u, update_todo db1 t.id u = (db1, .notFound))
      ∧ (∀ b, t ∉ list_todos db1 b) := by
  have hsome : (db.todos.find? (fun x => x.id == t.id)).isSome :=
    List.find?_isSome.2 ⟨t, ht, by simp⟩
  obtain ⟨t0, hfind⟩ := Option.isSome_iff_exists.1 hsome
  refine ⟨{ db with todos := db.todos.filter (fun x => x.id != t.id) }, ?_, ?_, ?_, ?_, ?_, ?_⟩
  · simp only [delete_todo, hfind]
  · intro x hx
    have := List.of_mem_filter hx
    simpa using this
  · have hnone : (db.todos.filter (fun x => x.id != t.id)).find?
        (fun x => x.id == t.id && x.deleted_at != none) = none := by
      rw [List.find?_eq_none]
      intro x hx
      have hne := List.of_mem_filter hx
      simp at hne ⊢
      intro h
      exact absurd h hne
    simp only [restore_todo, hnone]
  · have hnone : (db.todos.filter (fun x => x.id != t.id)).find?
        (fun x => x.id == t.id && x.deleted_at == none) = none := by
      rw [List.find?_eq_none]
      intro x hx
      have hne := List.of_mem_filter hx
      simp at hne ⊢
      intro h
      exact absurd h hne
    simp only [get_todo, hnone]
  · intro u
    have hnone : (db.todos.filter (fun x => x.id != t.id)).find?
        (fun x => x.id == t.id) = none := by
      rw [List.find?_eq_none]
      intro x hx
      have hne := List.of_mem_filter hx
      simpa using hne
    simp only [update_todo, hnone]
  · intro b hmem
    have hself : t ∈ db.todos.filter (fun x => x.id != t.id) := by
      cases b with
      | true =>
        have he : list_todos
            { db with todos := db.todos.filter (fun x => x.id != t.id) } true
            = db.todos.filter (fun x => x.id != t.id) := rfl
        rw [he] at hmem
        exact hmem
      | false =>
        have he : list_todos
            { db with todos := db.todos.filter (fun x => x.id != t.id) } false
            = (db.todos.filter (fun x => x.id != t.id)).filter
                (fun x => x.deleted_at == none) := rfl
        rw [he] at hmem
        exact List.mem_of_mem_filter hmem
    have hcontra := List.of_mem_filter hself
    simp at hcontra

/-- C6, witness: hard delete of a soft-deleted stored row at a concrete
database. -/
theorem hard_delete_is_permanent_witness :
    ∃ db1, delete_todo
        { todos := [{ id := 1, title := "t", description := none,
                      is_completed := some false, created_at := 0,
                      deleted_at := some 1 }],
          next_id := 2, now := 2 }
        (1 : Nat) = (db1, true)
      ∧ (∀ x ∈ db1.todos, x.id ≠ 1)
      ∧ restore_todo db1 1 = (db1, none)
      ∧ get_todo db1 1 = none
      ∧ (∀ u, update_todo db1 1 u = (db1, .notFound))
      ∧ (∀ b, ({ id := 1, title := "t", description := none,
                 is_completed := some false, created_at := 0,
                 deleted_at := some 1 } : Todo) ∉ list_todos db1 b) :=
  hard_delete_is_permanent
    { todos := [{ id := 1, title := "t", description := none,
                  is_completed := some false, created_at := 0,
                  deleted_at := some 1 }],
      next_id := 2, now := 2 }
    { id := 1, title := "t", description := none, is_completed := some false,
      created_at := 0, deleted_at := some 1 }
    (List.mem_singleton_self _)

/-- C5: soft delete of a stored active row succeeds, hides the row from
`get_todo`, and a subsequent restore succeeds and returns the original
row unchanged in every field, after which `get_todo` yields it again. -/
theorem soft_delete_restore_round_trip (db : DB) (hwf : db.WF)
    (t : Todo) (ht : t ∈ db.todos) (hact : t.deleted_at = none) :
    ∃ db1 db2,
      soft_delete_todo db t.id = (db1, true)
      ∧ get_todo db1 t.id = none
      ∧ restore_todo db1 t.id = (db2, some t)
      ∧ get_todo db2 t.id = some t := by
  have hfind1 : db.todos.find? (fun x => x.id == t.id && x.deleted_at == none)
      = some t :=
    find?_eq_some_unique _ _ t ht (by simp [hact])
      (fun y hy hpy => hwf y hy t ht (by simp at hpy; exact hpy.1))
  set f1 : Todo → Todo :=
    fun x => if x.id == t.id then { x with deleted_at := some db.now } else x with hf1
  have hf1id : ∀ x : Todo, (f1 x).id = x.id := by
    intro x
    rw [hf1]
    by_cases h : (x.id == t.id) = true <;> simp [h]
  set td : Todo := { t with deleted_at := some db.now } with htd
  have hf1t : f1 t = td := by
    rw [hf1, htd]
    simp
  set db1 : DB := { db with todos := db.todos.map f1, now := db.now + 1 } with hdb1
  have hmem_td : td ∈ db1.todos := by
    rw [hdb1]
    exact List.mem_map.2 ⟨t, ht, hf1t⟩
  have hfind2 : db1.todos.find? (fun x => x.id == t.id && x.deleted_at != none)
      = some td := by
    refine find?_eq_some_unique _ _ td hmem_td (by rw [htd]; simp) ?_
    intro y hy hpy
    rw [hdb1] at hy
    obtain ⟨x, hx, rfl⟩ := List.mem_map.1 hy
    have hxid : x.id = t.id := by
      have := hf1id x
      simp at hpy
      omega
    rw [hwf x hx t ht hxid, hf1t]
  have hrt : ({ td with deleted_at := none } : Todo) = t := by
    rw [htd, ← hact]
  have e3 : restore_todo db1 t.id =
      ({ db1 with
          todos := db1.todos.map (fun x => if x.id == t.id then t else x)
          now := db1.now + 1 }, some t) := by
    simp only [restore_todo, hfind2]
    rw [hrt]
  set db2 : DB :=
    { db1 with
        todos := db1.todos.map (fun x => if x.id == t.id then t else x)
        now := db1.now + 1 } with hdb2
  refine ⟨db1, db2, ?_, ?_, e3, ?_⟩
  · simp only [soft_delete_todo, hfind1]
  · rw [get_todo, List.find?_eq_none]
    intro y hy
    rw [hdb1] at hy
    obtain ⟨x, hx, rfl⟩ := List.mem_map.1 hy
    by_cases hxid : x.id = t.id
    · have hxt : x = t := hwf x hx t ht hxid
      subst hxt
      rw [hf1t, htd]
      simp
    · rw [hf1]
      simp [hxid]
  · rw [get_todo]
    have hmem_t : t ∈ db2.todos := by
      rw [hdb2]
      refine List.mem_map.2 ⟨td, hmem_td, ?_⟩
      rw [htd]
      simp
    refine find?_eq_some_unique _ _ t hmem_t (by simp [hact]) ?_
    intro y hy hpy
    have hyid : y.id = t.id := by
      simp at hpy
      exact hpy.1
    rw [hdb2] at hy
    obtain ⟨x', hx', rfl⟩ := List.mem_map.1 hy
    show (if (x'.id == t.id) = true then t else x') = t
    by_cases hc : (x'.id == t.id) = true
    · rw [if_pos hc]
    · exfalso
      have hyid' : (if (x'.id == t.id) = true then t else x').id = t.id := hyid
      rw [if_neg hc] at hyid'
      simp at hc
      exact hc hyid'

/-- C5, witness at a concrete one-row database. -/
theorem soft_delete_restore_round_trip_witness :
    ∃ db1 db2,
      soft_delete_todo
          { todos := [{ id := 1, title := "t", description := none,
                        is_completed := some false, created_at := 0,
                        deleted_at := none }],
            next_id := 2, now := 1 }
          (1 : Nat) = (db1, true)
      ∧ get_todo db1 1 = none
      ∧ restore_todo db1 1
        = (db2, some { id := 1, title := "t", description := none,
                       is_completed := some false, created_at := 0,
                       deleted_at := none })
      ∧ get_todo db2 1
        = some { id := 1, title := "t", description := none,
                 is_completed := some false, created_at := 0,
                 deleted_at := none } :=
  soft_delete_restore_round_trip
    { todos := [{ id := 1, title := "t", description := none,
                  is_completed := some false, created_at := 0, deleted_at := none }],
      next_id := 2, now := 1 }
    (by intro a ha b hb hab
        simp at ha hb
        rw [ha, hb])
    { id := 1, title := "t", description := none, is_completed := some false,
      created_at := 0, deleted_at := none }
    (List.mem_singleton_self _) rfl

/-- C7, counterexample to the claim as stated: `title: str | None`
admits an explicitly-null title, and `exclude_unset` passes it to the
`setattr` loop; instead of modifying the field, the commit then violates
the NOT NULL `title` column and raises `IntegrityError`, leaving the
store unchanged — so not every partial input has its set fields
applied. -/
theorem null_title_update_rejected :
    (let db : DB :=
      { todos := [{ id := 1, title := "old", description := none,
                    is_completed := some false, created_at := 0,
                    deleted_at := none }],
        next_id := 2, now := 1 }
     update_todo db 1
        { title := some none, description := none, is_completed := none }
       = (db, .integrityError)) := rfl

/-- C7 (amended): updating a stored active row with a partial input
whose explicitly set title (if any) is non-null applies exactly the
explicitly set fields — explicit nulls stored for the description or the
completion flag — and leaves every other field of the row, and every
other row, unchanged; an empty partial update leaves the row and the
whole table unchanged.  An input that explicitly sets the title to null
instead fails the commit with `IntegrityError` on the NOT NULL column
and leaves the store unchanged. -/
theorem update_applies_exactly_set_fields (db : DB) (hwf : db.WF)
    (t : Todo) (ht : t ∈ db.todos) (hact : t.deleted_at = none)
    (u : TodoUpdate) :
    (u.title = some none → update_todo db t.id u = (db, .integrityError))
    ∧ (u.title ≠ some none →
        ∃ db1 t',
          update_todo db t.id u = (db1, .updated t')
          ∧ t'.title = (match u.title with | some (some v) => v | _ => t.title)
          ∧ t'.description
            = (match u.description with | some v => v | none => t.description)
          ∧ t'.is_completed
            = (match u.is_completed with | some v => v | none => t.is_completed)
          ∧ t'.id = t.id
          ∧ t'.created_at = t.created_at
          ∧ t'.deleted_at = t.deleted_at
          ∧ (∀ x ∈ db.todos, x.id ≠ t.id → x ∈ db1.todos)
          ∧ (u = TodoUpdate.empty → t' = t ∧ db1.todos = db.todos)) := by
  have hfind : db.todos.find? (fun x => x.id == t.id) = some t :=
    find?_eq_some_unique _ _ t ht (by simp)
      (fun y hy hpy => hwf y hy t ht (by simpa using hpy))
  have hnd : ¬t.deleted_at ≠ none := by
    rw [hact]
    exact fun h => h rfl
  constructor
  · intro hnull
    have hti : u.title.getD (some t.title) = none := by
      rw [hnull]
      rfl
    simp only [update_todo, hfind, hnd, ite_false, hti]
  · intro hnn
    obtain ⟨new_title, hti⟩ : ∃ v, u.title.getD (some t.title) = some v := by
      cases hu : u.title with
      | none => exact ⟨t.title, rfl⟩
      | some s =>
        cases s with
        | none => exact absurd hu hnn
        | some v => exact ⟨v, rfl⟩
    have e1 : update_todo db t.id u =
        ({ db with
            todos := db.todos.map
              (fun x => if x.id == t.id then appliedUpdate t u new_title else x)
            now := db.now + 1 },
         .updated (appliedUpdate t u new_title)) := by
      simp only [update_todo, hfind, hnd, ite_false, hti]
    refine ⟨_, appliedUpdate t u new_title, e1, ?_, ?_, ?_, rfl, rfl, rfl, ?_, ?_⟩
    · cases hu : u.title with
      | none =>
        rw [hu, Option.getD_none] at hti
        obtain rfl : t.title = new_title := by injection hti
        simp [appliedUpdate, hu]
      | some s =>
        cases s with
        | none => exact absurd hu hnn
        | some v =>
          rw [hu, Option.getD_some] at hti
          obtain rfl : v = new_title := by injection hti
          simp [appliedUpdate, hu]
    · cases h : u.description with
      | none => simp [appliedUpdate, h]
      | some v => simp [appliedUpdate, h]
    · cases h : u.is_completed with
      | none => simp [appliedUpdate, h]
      | some v => simp [appliedUpdate, h]
    · intro x hx hxid
      refine List.mem_map.2 ⟨x, hx, ?_⟩
      rw [if_neg (by simpa using hxid)]
    · intro hu
      subst hu
      have hti' : (some t.title : Option String) = some new_title := hti
      obtain rfl : t.title = new_title := by injection hti'
      have happ : appliedUpdate t TodoUpdate.empty t.title = t := rfl
      refine ⟨happ, ?_⟩
      show db.todos.map
          (fun x => if x.id == t.id then appliedUpdate t TodoUpdate.empty t.title else x)
        = db.todos
      rw [happ]
      have hpt : ∀ x ∈ db.todos, (if x.id == t.id then t else x) = x := by
        intro x hx
        by_cases hc : (x.id == t.id) = true
        · rw [if_pos hc]
          exact (hwf x hx t ht (by simpa using hc)).symm
        · rw [if_neg hc]
      exact (List.map_congr_left hpt).trans (List.map_id _)

/-- C7, witness for the amended theorem: a title-only (non-null) update
of a one-row database. -/
theorem update_applies_exactly_set_fields_witness :
    ∃ db1 t',
      update_todo
          { todos := [{ id := 1, title := "old", description := some "d",
                        is_completed := some false, created_at := 0,
                        deleted_at := none }],
            next_id := 2, now := 1 }
          (1 : Nat)
          { title := some (some "new"), description := none, is_completed := none }
        = (db1, .updated t')
      ∧ t'.title = "new"
      ∧ t'.description = some "d"
      ∧ t'.is_completed = some false
      ∧ t'.id = 1
      ∧ t'.created_at = 0
      ∧ t'.deleted_at = none
      ∧ (∀ x ∈ ({ todos := [{ id := 1, title := "old", description := some "d",
                              is_completed := some false, created_at := 0,
                              deleted_at := none }],
                  next_id := 2, now := 1 } : DB).todos,
          x.id ≠ 1 → x ∈ db1.todos)
      ∧ (({ title := some (some "new"), description := none,
            is_completed := none } : TodoUpdate) = TodoUpdate.empty →
          t' = { id := 1, title := "old", description := some "d",
                 is_completed := some false, created_at := 0, deleted_at := none }
          ∧ db1.todos
            = ({ todos := [{ id := 1, title := "old", description := some "d",
                             is_completed := some false, created_at := 0,
                             deleted_at := none }],
                 next_id := 2, now := 1 } : DB).todos) :=
  (update_applies_exactly_set_fields
    { todos := [{ id := 1, title := "old", description := some "d",
                  is_completed := some false, created_at := 0, deleted_at := none }],
      next_id := 2, now := 1 }
    (by intro a ha b hb hab
        simp at ha hb
        rw [ha, hb])
    { id := 1, title := "old", description := some "d", is_completed := some false,
      created_at := 0, deleted_at := none }
    (List.mem_singleton_self _) rfl
    { title := some (some "new"), description := none, is_completed := none }).2
    (by decide)

/-- The soft-delete iteration's get endpoint answers 404 exactly when
the data-access layer reports absence, and the 404 detail names the
requested id. -/
theorem get_todo_endpoint_404_iff_absent (db : DB) (todo_id : Nat) :
    get_todo_endpoint db todo_id
        = .err 404 ("TODO item not found with id " ++ toString todo_id)
      ↔ get_todo db todo_id = none := by
  rw [get_todo_endpoint]
  cases get_todo db todo_id with
  | none => simp
  | some t => simp

/-- The soft-delete iteration's delete endpoint answers 404 with the
requested id exactly when `soft_delete_todo` reports failure, and 204
otherwise. -/
theorem soft_delete_endpoint_status (db : DB) (todo_id : Nat) :
    (soft_delete_todo_endpoint db todo_id).2
      = (if (soft_delete_todo db todo_id).2 then .ok 204 ()
         else .err 404 ("TODO item not found or already deleted with id "
            ++ toString todo_id)) := by
  rw [soft_delete_todo_endpoint]
  cases h : soft_delete_todo db todo_id with
  | mk db1 r => cases r <;> simp

/-- Structural facts about the page returned by `list_todos_paged`: it
is a sublist of the stored rows (so insertion order is preserved), it
never exceeds the page size, and every returned row is active and — when
a query is given — matches it case-insensitively on the title. -/
theorem list_todos_paged_spec (db : DB) (page limit : Nat) (q : Option String) :
    List.Sublist (list_todos_paged db page limit q).1 db.todos
    ∧ (list_todos_paged db page limit q).1.length ≤ limit
    ∧ ∀ x ∈ (list_todos_paged db page limit q).1,
        x.deleted_at = none ∧ ∀ s, q = some s → titleMatches x.title s = true := by
  cases q with
  | none =>
    refine ⟨?_, List.length_take_le _ _, ?_⟩
    · exact ((List.take_sublist _ _).trans (List.drop_sublist _ _)).trans
        (List.filter_sublist _)
    · intro x hx
      have hx1 : x ∈ db.todos.filter (fun t => t.deleted_at == none) :=
        List.mem_of_mem_drop (List.mem_of_mem_take hx)
      have hx2 := List.of_mem_filter hx1
      refine ⟨by simpa using hx2, ?_⟩
      intro s hs
      cases hs
  | some s0 =>
    refine ⟨?_, List.length_take_le _ _, ?_⟩
    · exact ((List.take_sublist _ _).trans (List.drop_sublist _ _)).trans
        ((List.filter_sublist _).trans (List.filter_sublist _))
    · intro x hx
      have hx1 : x ∈ (db.todos.filter (fun t => t.deleted_at == none)).filter
          (fun t => titleMatches t.title s0) :=
        List.mem_of_mem_drop (List.mem_of_mem_take hx)
      have hmatch := List.of_mem_filter hx1
      have hx2 := List.of_mem_filter (List.mem_of_mem_filter hx1)
      refine ⟨by simpa using hx2, ?_⟩
      intro s hs
      injection hs with hs
      rw [← hs]
      exact hmatch

/-- C3: for every page, limit and optional query accepted at the
boundary, the list endpoint returns the requested 1-based slice of the
active items that match the query case-insensitively on the title, in
stored (creation) order, together with the pre-pagination matching count
and the pagination metadata computed from it; at most `limit` items come
back, each of them active and matching. -/
theorem list_endpoint_pages_matching_actives (db : DB) (page limit : Nat)
    (q : Option String) (_hp : 1 ≤ page) (_hl : 1 ≤ limit) (_hl20 : limit ≤ 20) :
    (let active := db.todos.filter (fun t => t.deleted_at == none)
     let matching :=
       match q with
       | none => active
       | some s => active.filter (fun t => titleMatches t.title s)
     (list_todos_endpoint db page limit q).1
        = (matching.drop ((page - 1) * limit)).take limit
     ∧ (list_todos_endpoint db page limit q).2.total_items = matching.length
     ∧ (list_todos_endpoint db page limit q).2
        = paginationInfo page limit matching.length
     ∧ (list_todos_endpoint db page limit q).1.length ≤ limit
     ∧ List.Sublist (list_todos_endpoint db page limit q).1 db.todos
     ∧ ∀ x ∈ (list_todos_endpoint db page limit q).1,
         x.deleted_at = none ∧ ∀ s, q = some s → titleMatches x.title s = true) := by
  obtain ⟨h1, h2, h3⟩ := list_todos_paged_spec db page limit q
  cases q with
  | none => exact ⟨rfl, rfl, rfl, h2, h1, h3⟩
  | some s0 => exact ⟨rfl, rfl, rfl, h2, h1, h3⟩

/-- C3, witness: a three-row database — one soft-deleted row, one
matching and one non-matching active row — listed with a query. -/
theorem list_endpoint_pages_matching_actives_witness :
    (let db : DB :=
      { todos :=
          [{ id := 1, title := "Buy milk", description := none,
             is_completed := some false, created_at := 0, deleted_at := none },
           { id := 2, title := "Walk dog", description := none,
             is_completed := some false, created_at := 1, deleted_at := none },
           { id := 3, title := "Old milk run", description := none,
             is_completed := some true, created_at := 2, deleted_at := some 3 }],
        next_id := 4, now := 4 }
     let active := db.todos.filter (fun t => t.deleted_at == none)
     let matching :=
       match some "milk" with
       | none => active
       | some s => active.filter (fun t => titleMatches t.title s)
     (list_todos_endpoint db 1 10 (some "milk")).1
        = (matching.drop ((1 - 1) * 10)).take 10
     ∧ (list_todos_endpoint db 1 10 (some "milk")).2.total_items = matching.length
     ∧ (list_todos_endpoint db 1 10 (some "milk")).2
        = paginationInfo 1 10 matching.length
     ∧ (list_todos_endpoint db 1 10 (some "milk")).1.length ≤ 10
     ∧ List.Sublist (list_todos_endpoint db 1 10 (some "milk")).1 db.todos
     ∧ ∀ x ∈ (list_todos_endpoint db 1 10 (some "milk")).1,
         x.deleted_at = none
         ∧ ∀ s, (some "milk" : Option String) = some s
            → titleMatches x.title s = true) :=
  list_endpoint_pages_matching_actives
    { todos :=
        [{ id := 1, title := "Buy milk", description := none,
           is_completed := some false, created_at := 0, deleted_at := none },
         { id := 2, title := "Walk dog", description := none,
           is_completed := some false, created_at := 1, deleted_at := none },
         { id := 3, title := "Old milk run", description := none,
           is_completed := some true, created_at := 2, deleted_at := some 3 }],
      next_id := 4, now := 4 }
    1 10 (some "milk") (by decide) (by decide) (by decide)

end WS1

end DbWorkshop
